import Mathlib

/-!
# Verification of the conversational slot-filling session module

Shallow embedding of `process_conversational_profile.py`
(`src/nested_schemas/tc_conversational_slot_filling/`), the conversational
profile-building tool: JSON-like values, the field-path resolver
(`has_field`), the completeness calculator (`calculate_completeness`), the
prompt selector (`get_next_prompt`), the recursive profile merger
(`merge_profile_data`), and the session-store lifecycle operations
(`start_profile_session`, `update_profile_session`,
`finalize_profile_session`, `get_session_status`).

Python dictionaries are embedded as association lists with Python's
ordering semantics: assignment replaces the value in place when the key is
present and appends at the end otherwise; lookup returns the first match.
All embedded functions are pure Lean functions; the clock and the uuid
generator, the only impure inputs of the Python module, are passed in as
explicit oracle arguments (`session_id`, `created_at`, ...), and every
operation that mutates the module-level `SESSIONS` dict takes the store as
an argument and returns the new store alongside its response.
-/

set_option autoImplicit false

namespace SlotFilling

/-- JSON-like values as stored in profiles, updates and responses.
`num` covers Python ints (no float ever enters a profile through this
module's operations; numeric truthiness is nonzero-ness either way). -/
inductive JValue where
  | str (s : String)
  | num (n : Int)
  | bool (b : Bool)
  | null
  | arr (xs : List JValue)
  | obj (fields : List (String × JValue))

/-- A Python dict with string keys: an ordered association list. -/
abbrev JObj := List (String × JValue)

/-- Dict lookup `d[k]` / membership `k in d`: the first entry whose key
matches (a Python dict holds each key at most once). Generic in the key
type: profile and response dicts use `String` keys, the heap model below
uses `Nat` addresses. -/
def alookup {κ α : Type} [DecidableEq κ] : List (κ × α) → κ → Option α
  | [], _ => none
  | (k', v) :: rest, k => if k' = k then some v else alookup rest k

/-- Dict assignment `d[k] = v`: replace in place when the key is present
(keeping its position, as Python dicts do), append at the end otherwise. -/
def aset {κ α : Type} [DecidableEq κ] : List (κ × α) → κ → α → List (κ × α)
  | [], k, v => [(k, v)]
  | (k', v') :: rest, k, v =>
      if k' = k then (k, v) :: rest else (k', v') :: aset rest k v

/-- Dict deletion `del d[k]`. -/
def adel {κ α : Type} [DecidableEq κ] (l : List (κ × α)) (k : κ) : List (κ × α) :=
  l.filter (fun kv => decide (kv.1 ≠ k))

/-- The keys of a dict, in order. -/
def akeys {κ α : Type} (l : List (κ × α)) : List κ := l.map Prod.fst

/-- Python truthiness of a value: non-empty string, non-zero number,
`True`, non-empty list/dict; `None` and `False` are falsy. -/
def truthy : JValue → Bool
  | .str s => !(s == "")
  | .num n => !(n == 0)
  | .bool b => b
  | .null => false
  | .arr xs => !xs.isEmpty
  | .obj fs => !fs.isEmpty

/-- Python's `str.split('.')` on the character list: splitting at every
dot, keeping empty pieces, and returning `[""]` on the empty string. -/
def split_dot_chars : List Char → List (List Char)
  | [] => [[]]
  | c :: cs =>
      match split_dot_chars cs with
      | [] => [[]]
      | w :: ws => if c = '.' then [] :: w :: ws else (c :: w) :: ws

/-- `field_path.split('.')`. -/
def split_dot (s : String) : List String :=
  (split_dot_chars s.data).map (fun cs => String.mk cs)

/-- `jget result key` restricted to mapping values: `some ro` exactly when
`key in result and isinstance(result[key], dict)` with `ro` that dict. -/
def get_sub_obj (o : JObj) (k : String) : Option (List (String × JValue)) :=
  match alookup o k with
  | some (.obj ro) => some ro
  | _ => none

mutual

/-- `merge_profile_data` (lines 117-137): start from a copy of `existing`
and process the `updates` entries in order with `merge_assign`. -/
def merge_profile_data : JObj → JObj → JObj
  | result, [] => result
  | result, (key, value) :: rest =>
      merge_profile_data (merge_assign result key value) rest
termination_by _ updates => sizeOf updates

/-- The body of the `for key, value in updates.items()` loop of
`merge_profile_data`: when the key already maps to a dict in `result` and
the incoming value is a dict, recursively merge them, otherwise assign
the incoming value outright (`result[key] = value`). -/
def merge_assign (result : JObj) (key : String) : JValue → JObj
  | .obj uo =>
      match get_sub_obj result key with
      | some ro => aset result key (.obj (merge_profile_data ro uo))
      | none => aset result key (.obj uo)
  | value => aset result key value
termination_by value => sizeOf value

end

/-- The loop body of `has_field` (lines 58-67): walk the remaining path
segments from `current`, requiring at each step a dict that contains the
segment with a truthy value. -/
def has_field_walk : JValue → List String → Bool
  | _, [] => true
  | current, part :: rest =>
      match current with
      | .obj fs =>
          match alookup fs part with
          | some v => truthy v && has_field_walk v rest
          | none => false
      | _ => false

/-- `has_field` (lines 58-67): split the dotted path and walk it. -/
def has_field (data : JObj) (field_path : String) : Bool :=
  has_field_walk (.obj data) (split_dot field_path)

/-- The fixed required-field configuration (lines 42-49). -/
def required_fields : List String :=
  ["name", "email", "type", "address.street", "address.city", "address.country"]

/-- The fixed optional-field configuration (lines 51-56). -/
def optional_fields : List String :=
  ["address.state", "address.zipcode", "contact.phone", "contact.mobile"]

/-- `calculate_completeness` (lines 33-83). The Python source computes the
percentage as `int((completed_fields / total_fields) * 100)` in binary
floating point; for `total_fields = 10` and `completed_fields` between 0
and 10 that float computation yields exactly the integer
`completed_fields * 10` (finite check over the eleven possible values),
so it is embedded as the equal natural-number division
`(completed_fields * 100) / total_fields`. -/
def calculate_completeness (profile : JObj) : Nat × List String × List String :=
  let missing_required := required_fields.filter (fun f => !has_field profile f)
  let missing_optional := optional_fields.filter (fun f => !has_field profile f)
  let total_fields := required_fields.length + optional_fields.length
  let completed_fields := total_fields - missing_required.length - missing_optional.length
  let percentage := (completed_fields * 100) / total_fields
  (percentage, missing_required, missing_optional)

/-- The prompt table of `get_next_prompt` (lines 101-108), with
`dict.get`'s fallback for a path outside the table. -/
def prompt_for (field : String) : String :=
  if field = "name" then "What\x27s your name?"
  else if field = "email" then "Great! What\x27s your email address?"
  else if field = "type" then "Are you an individual or corporate customer?"
  else if field = "address.street" then "What\x27s your street address?"
  else if field = "address.city" then "Which city are you in?"
  else if field = "address.country" then "Which country are you in? (US, CA, or UK)"
  else "Please provide: " ++ field

/-- `get_next_prompt` (lines 86-114). -/
def get_next_prompt (missing_required missing_optional : List String) : String :=
  if missing_required.isEmpty && missing_optional.isEmpty then
    "Profile complete! Ready to submit?"
  else
    match missing_required with
    | field :: _ => prompt_for field
    | [] =>
        if !missing_optional.isEmpty then
          "Would you like to add contact information? (optional)"
        else
          "Profile complete! Ready to submit?"

/-- A record of the module-level `SESSIONS` store (lines 159-166): the
fixed-shape session dict built by `start_profile_session`. -/
structure Session where
  session_id : String
  status : String
  profile : JObj
  conversation_turn : Nat
  created_at : String
  updated_at : String

/-- The `SESSIONS` dict: session id to session record. -/
abbrev Store := List (String × Session)

/-- The `SESSION_NOT_FOUND` error response (lines 194-197 and twins). -/
def session_not_found (session_id : String) : JObj :=
  [("error", .str "SESSION_NOT_FOUND"),
   ("message", .str ("Session " ++ session_id ++ " not found"))]

/-- `start_profile_session` (lines 140-180). `session_id`, `created_at`
and `updated_at` are the oracle inputs the source draws from `uuid4` and
`datetime.utcnow` (two separate clock reads). -/
def start_profile_session (store : Store) (data : JObj)
    (session_id created_at updated_at : String) : JObj × Store :=
  let profile : JObj := [("name", (alookup data "name").getD (.str "Unknown"))]
  let c := calculate_completeness profile
  let percentage := c.1
  let missing_required := c.2.1
  let missing_optional := c.2.2
  let next_prompt := get_next_prompt missing_required missing_optional
  let session : Session :=
    { session_id := session_id, status := "in_progress", profile := profile,
      conversation_turn := 1, created_at := created_at, updated_at := updated_at }
  let resp : JObj :=
    [("session_id", .str session_id),
     ("status", .str "in_progress"),
     ("completeness_percentage", .num percentage),
     ("profile", .obj profile),
     ("missing_required_fields", .arr (missing_required.map .str)),
     ("missing_optional_fields", .arr (missing_optional.map .str)),
     ("next_prompt", .str next_prompt),
     ("conversation_turn", .num 1),
     ("created_at", .str created_at)]
  (resp, aset store session_id session)

/-- `update_profile_session` (lines 183-225). `now` is the oracle
`datetime.utcnow` read used to refresh `updated_at`. -/
def update_profile_session (store : Store) (session_id : String) (updates : JObj)
    (now : String) : JObj × Store :=
  match alookup store session_id with
  | none => (session_not_found session_id, store)
  | some session =>
      let profile' := merge_profile_data session.profile updates
      let turn' := session.conversation_turn + 1
      let c := calculate_completeness profile'
      let percentage := c.1
      let missing_required := c.2.1
      let missing_optional := c.2.2
      let next_prompt := get_next_prompt missing_required missing_optional
      let status' := if missing_required.isEmpty then "complete" else session.status
      let session' : Session :=
        { session with
            profile := profile', conversation_turn := turn',
            updated_at := now, status := status' }
      let resp : JObj :=
        [("session_id", .str session_id),
         ("status", .str status'),
         ("completeness_percentage", .num percentage),
         ("profile", .obj profile'),
         ("missing_required_fields", .arr (missing_required.map .str)),
         ("missing_optional_fields", .arr (missing_optional.map .str)),
         ("next_prompt", .str next_prompt),
         ("conversation_turn", .num turn'),
         ("updated_at", .str now)]
      (resp, aset store session_id session')

/-- The string held by a formatted-address component, assuming it is a
string. This is a *total stand-in*: on a truthy non-string component the
Python `", ".join` raises `TypeError` rather than producing any string,
so `format_address` below is faithful only on profiles whose truthy
address components are all strings; `format_address_checked` models the
raise itself and is the authoritative embedding of lines 263-270. -/
def jval_string : JValue → String
  | .str s => s
  | _ => ""

/-- Lines 263-270: `", ".join([p for p in address_parts if p])` over the
street/city/state/zipcode/country components, each defaulted to `""`.
Total stand-in, faithful only where the join does not raise — see
`format_address_checked` and `finalize_profile_session_run`. -/
def format_address (address : JObj) : String :=
  let parts := [(alookup address "street").getD (.str ""),
                (alookup address "city").getD (.str ""),
                (alookup address "state").getD (.str ""),
                (alookup address "zipcode").getD (.str ""),
                (alookup address "country").getD (.str "")]
  String.intercalate ", " ((parts.filter truthy).map jval_string)

/-- Lines 280-286: count collected fields — a dict entry contributes the
number of its truthy immediate values, any other entry contributes one
when truthy. -/
def count_fields_collected (profile : JObj) : Nat :=
  profile.foldl
    (fun acc kv =>
      match kv.2 with
      | .obj fs => acc + (fs.filter (fun kv2 => truthy kv2.2)).length
      | v => acc + (if truthy v then 1 else 0))
    0

/-- `profile.get(k, {})` followed by attribute access on the result: the
sub-dict when present, empty otherwise. Total stand-in: on a non-dict
value Python's `.get` attribute access raises `AttributeError` rather
than returning — `sub_obj_checked` models the raise itself and is the
authoritative embedding. -/
def sub_obj_or_empty (profile : JObj) (k : String) : JObj :=
  match alookup profile k with
  | some (.obj o) => o
  | _ => []

/-- `finalize_profile_session` (lines 228-311), totalized. `profile_id`
and `finalized_at` are the oracle uuid/clock inputs; `minutes` abstracts
the `datetime` subtraction `int((updated_at - created_at).total_seconds() / 60)`,
whose timestamp parsing the claims never touch.

The success branch of the source can raise an uncaught exception before
reaching `del SESSIONS[session_id]`: `TypeError` from `", ".join` on a
truthy non-string address component (line 270), or `AttributeError` from
`.get` on a non-mapping `address`/`contact` entry (lines 264, 298). This
total version silently passes through those states and is therefore
faithful only on the not-found branch, the validation branch (which
returns at line 256, before any raising code runs), and raise-free
success states. `finalize_profile_session_run` below models the raises
precisely and agrees with this function wherever it returns
(`finalize_run_agrees`). -/
def finalize_profile_session (store : Store) (session_id : String)
    (profile_id : String) (minutes : Int) (finalized_at : String) : JObj × Store :=
  match alookup store session_id with
  | none => (session_not_found session_id, store)
  | some session =>
      let profile := session.profile
      let c := calculate_completeness profile
      let missing_required := c.2.1
      if !missing_required.isEmpty then
        ([("error", .str "VALIDATION_ERROR"),
          ("message", .str "Profile incomplete - missing required fields"),
          ("missing_fields", .arr (missing_required.map .str)),
          ("session_id", .str session_id)], store)
      else
        let address := sub_obj_or_empty profile "address"
        let contact := sub_obj_or_empty profile "contact"
        let time_str :=
          toString minutes ++ " minute" ++ (if minutes != 1 then "s" else "")
        let result : JObj :=
          [("success", .bool true),
           ("message", .str "Profile finalized and submitted successfully"),
           ("profile_id", .str profile_id),
           ("customer_name", (alookup profile "name").getD (.str "Unknown")),
           ("customer_email", (alookup profile "email").getD (.str "Not provided")),
           ("customer_type", (alookup profile "type").getD (.str "Not specified")),
           ("address_formatted", .str (format_address address)),
           ("contact_phone", (alookup contact "phone").getD (.str "Not provided")),
           ("contact_mobile", (alookup contact "mobile").getD (.str "Not provided")),
           ("conversation_summary", .obj
             [("total_turns", .num session.conversation_turn),
              ("fields_collected", .num (count_fields_collected profile)),
              ("time_to_complete", .str time_str)]),
           ("finalized_at", .str finalized_at)]
        (result, adel store session_id)

/-- Whether a value is a Python `str`. -/
def jval_is_str : JValue → Bool
  | .str _ => true
  | _ => false

/-- `profile.get(k, {})` followed by attribute access on the result,
with the raise modelled: `some` of the sub-dict when the entry is a
mapping, `some {}` when the key is absent, and `none` — Python's
`AttributeError` on `.get` (lines 264, 298) — when the entry holds a
non-mapping value (truthy or not: `.get` on any non-dict raises). -/
def sub_obj_checked (profile : JObj) (k : String) : Option JObj :=
  match alookup profile k with
  | some (.obj o) => some o
  | some _ => none
  | none => some []

/-- Lines 263-270 with the raise modelled: the truthy address components
(each `.get` defaulted to `""`) are comma-joined when all of them are
strings; the result is `none` — Python's `TypeError` from `", ".join`
(line 270) — when a truthy non-string component survives the filter. -/
def format_address_checked (address : JObj) : Option String :=
  let parts := [(alookup address "street").getD (.str ""),
                (alookup address "city").getD (.str ""),
                (alookup address "state").getD (.str ""),
                (alookup address "zipcode").getD (.str ""),
                (alookup address "country").getD (.str "")]
  let kept := parts.filter truthy
  if kept.all jval_is_str then some (String.intercalate ", " (kept.map jval_string))
  else none

/-- `finalize_profile_session` (lines 228-311) with the success branch's
raising states modelled precisely, in source order: `none` means the
source raises an uncaught exception (`AttributeError` at
`address.get`, line 264; `TypeError` at the address join, line 270;
`AttributeError` at `contact.get`, line 298) *before* reaching
`del SESSIONS[session_id]` at line 309 — no result is returned and the
session is not removed from the store. Wherever it returns `some`, it
agrees with the total `finalize_profile_session`
(`finalize_run_agrees`). -/
def finalize_profile_session_run (store : Store) (session_id : String)
    (profile_id : String) (minutes : Int) (finalized_at : String) :
    Option (JObj × Store) :=
  match alookup store session_id with
  | none => some (session_not_found session_id, store)
  | some session =>
      let profile := session.profile
      let c := calculate_completeness profile
      let missing_required := c.2.1
      if !missing_required.isEmpty then
        some ([("error", .str "VALIDATION_ERROR"),
          ("message", .str "Profile incomplete - missing required fields"),
          ("missing_fields", .arr (missing_required.map .str)),
          ("session_id", .str session_id)], store)
      else
        match sub_obj_checked profile "address" with
        | none => none
        | some address =>
            match format_address_checked address with
            | none => none
            | some address_formatted =>
                match sub_obj_checked profile "contact" with
                | none => none
                | some contact =>
                    let time_str :=
                      toString minutes ++ " minute" ++ (if minutes != 1 then "s" else "")
                    let result : JObj :=
                      [("success", .bool true),
                       ("message", .str "Profile finalized and submitted successfully"),
                       ("profile_id", .str profile_id),
                       ("customer_name", (alookup profile "name").getD (.str "Unknown")),
                       ("customer_email", (alookup profile "email").getD (.str "Not provided")),
                       ("customer_type", (alookup profile "type").getD (.str "Not specified")),
                       ("address_formatted", .str address_formatted),
                       ("contact_phone", (alookup contact "phone").getD (.str "Not provided")),
                       ("contact_mobile", (alookup contact "mobile").getD (.str "Not provided")),
                       ("conversation_summary", .obj
                         [("total_turns", .num session.conversation_turn),
                          ("fields_collected", .num (count_fields_collected profile)),
                          ("time_to_complete", .str time_str)]),
                       ("finalized_at", .str finalized_at)]
                    some (result, adel store session_id)

/-- The profiles on which finalize's success branch runs to completion
in the source without raising: the `address` entry (and the `contact`
entry, when present) is a mapping and every truthy formatted-address
component is a string. Every profile the documented conversation flow
builds satisfies this. -/
def finalize_success_safe (profile : JObj) : Bool :=
  match sub_obj_checked profile "address" with
  | none => false
  | some address =>
      (format_address_checked address).isSome &&
        (sub_obj_checked profile "contact").isSome

/-- `get_session_status` (lines 314-345): a pure read. -/
def get_session_status (store : Store) (session_id : String) : JObj :=
  match alookup store session_id with
  | none => session_not_found session_id
  | some session =>
      let c := calculate_completeness session.profile
      let percentage := c.1
      let missing_required := c.2.1
      let missing_optional := c.2.2
      let next_prompt := get_next_prompt missing_required missing_optional
      [("session_id", .str session_id),
       ("status", .str session.status),
       ("completeness_percentage", .num percentage),
       ("profile", .obj session.profile),
       ("missing_required_fields", .arr (missing_required.map .str)),
       ("missing_optional_fields", .arr (missing_optional.map .str)),
       ("next_prompt", .str next_prompt),
       ("conversation_turn", .num session.conversation_turn),
       ("created_at", .str session.created_at),
       ("updated_at", .str session.updated_at)]

/-!
## Spec-side definitions

These definitions follow the specification's words rather than the source,
and exist to be compared with the source-derived definitions above.
-/

/-- The field-path contract as §4.1 of the spec states it: every
intermediate segment resolves to a mapping containing the next segment,
and the final segment's value is present and truthy. -/
def spec_walk : JObj → List String → Bool
  | _, [] => true
  | m, [last] =>
      match alookup m last with
      | some v => truthy v
      | none => false
  | m, seg :: next :: rests =>
      match alookup m seg with
      | some (.obj m') => spec_walk m' (next :: rests)
      | _ => false

/-- The spec-side field-path check over the dot-split path. -/
def spec_has_field (data : JObj) (field_path : String) : Bool :=
  spec_walk data (split_dot field_path)

/-- The pointwise merge rule as the spec (§4.4) states it, at one key:
an update key whose existing and incoming values are both mappings merges
them recursively, any other update key takes the incoming value outright,
and a key not mentioned in `updates` keeps its existing value. -/
def merge_spec_at (existing updates : JObj) (k : String) : Option JValue :=
  match alookup updates k, alookup existing k with
  | none, ev => ev
  | some (.obj uo), some (.obj ro) => some (.obj (merge_profile_data ro uo))
  | some v, _ => some v

mutual

/-- The "updates that only add fields (never remove)" restriction of the
spec's monotonicity property (§8), relative to the current profile: an
update entry may merge mapping-into-mapping (recursively add-only), may
add a key the profile lacks, or may replace a value that is falsy — it
never replaces a truthy existing value except by a recursive
mapping-merge. -/
def adds_only : JObj → JObj → Bool
  | _, [] => true
  | e, (k, v) :: rest => adds_only_entry e k v && adds_only e rest
termination_by _ u => sizeOf u

/-- One entry of `adds_only`. -/
def adds_only_entry (e : JObj) (k : String) : JValue → Bool
  | .obj uo =>
      match alookup e k with
      | some (.obj eo) => adds_only eo uo
      | some ev => !truthy ev
      | none => true
  | _ =>
      match alookup e k with
      | some ev => !truthy ev
      | none => true
termination_by v => sizeOf v

end

mutual

/-- Dict well-formedness of an update object: duplicate-free keys at
every mapping level (a parsed JSON object always satisfies this). -/
def update_wf : JObj → Bool
  | [] => true
  | (k, v) :: rest => (alookup rest k).isNone && update_wf_val v && update_wf rest
termination_by u => sizeOf u

/-- Dict well-formedness of an update value. -/
def update_wf_val : JValue → Bool
  | .obj fs => update_wf fs
  | _ => true
termination_by v => sizeOf v

end

/-!
## Heap model of the merge

`merge_profile_data` starts from `existing.copy()` — a *shallow* copy —
and writes only into that copy (and into the fresh copies its recursive
calls allocate). To state that the caller's `existing` dict is not
observably altered, Python's reference semantics is modelled explicitly:
dict objects live at heap addresses, a dict slot holds either an inline
non-dict value or a reference to another dict object, and the merge is
replayed as a heap transformer. Lists are never mutated by the merge, so
carrying them inline is observation-equivalent. The merge follows
references, so it takes a fuel bound (Python would recurse just as deep);
all results are stated for every fuel on which the merge returns. -/

/-- A slot of a heap dict: an inline non-dict value, or a reference to a
dict object at an address. -/
inductive HVal where
  | scalar (v : JValue)
  | ref (a : Nat)

/-- A dict object on the heap. -/
abbrev HObj := List (String × HVal)

/-- The heap: allocated addresses with their dict objects. -/
abbrev Heap := List (Nat × HObj)

/-- The address of the dict referenced at `o[k]`, when `k in o` and
`isinstance(o[k], dict)`. -/
def get_ref (o : HObj) (k : String) : Option Nat :=
  match alookup o k with
  | some (.ref a) => some a
  | _ => none

mutual

/-- `merge_profile_data` replayed on the heap. `next` is the next free
address (every allocated address and every reference is below it);
`ea`/`ua` address `existing` and `updates`. Returns the heap after the
call, the new next-free address, and the address of the freshly
allocated `result` dict. `result = existing.copy()` allocates a shallow
copy at `next`; the loop then writes into that fresh object only. -/
def merge_heap : Nat → Heap → Nat → Nat → Nat → Option (Heap × Nat × Nat)
  | 0, _, _, _, _ => none
  | fuel + 1, h, next, ea, ua =>
      match alookup h ea, alookup h ua with
      | some eObj, some uObj =>
          match merge_heap_entries fuel (aset h next eObj) (next + 1) next uObj with
          | some (h', next') => some (h', next', next)
          | none => none
      | _, _ => none
termination_by fuel _ _ _ _ => (fuel, 0)

/-- The `for key, value in updates.items()` loop on the heap, writing
into the result object at `ra`: a reference value whose existing slot is
also a dict reference triggers a recursive merge whose fresh result is
written at the key (`result[key] = merge_profile_data(result[key], value)`);
any other value is assigned outright (`result[key] = value`). -/
def merge_heap_entries : Nat → Heap → Nat → Nat → HObj → Option (Heap × Nat)
  | _, h, next, _, [] => some (h, next)
  | fuel, h, next, ra, (k, v) :: rest =>
      match alookup h ra with
      | none => none
      | some rObj =>
          match v with
          | .ref ua' =>
              match get_ref rObj k with
              | some a' =>
                  match merge_heap fuel h next a' ua' with
                  | none => none
                  | some (h', next', sub) =>
                      match alookup h' ra with
                      | none => none
                      | some rObj' =>
                          merge_heap_entries fuel
                            (aset h' ra (aset rObj' k (.ref sub))) next' ra rest
              | none =>
                  merge_heap_entries fuel (aset h ra (aset rObj k (.ref ua'))) next ra rest
          | .scalar sv =>
              merge_heap_entries fuel (aset h ra (aset rObj k (.scalar sv))) next ra rest
termination_by fuel _ _ _ entries => (fuel, entries.length + 1)

end

mutual

/-- Read the JSON value of the dict object at address `a` (the
observable value of a Python dict reference), to depth `fuel`. -/
def read_ref : Nat → Heap → Nat → Option JValue
  | 0, _, _ => none
  | fuel + 1, h, a =>
      match alookup h a with
      | none => none
      | some o => (read_entries fuel h o).map .obj
termination_by fuel _ _ => (fuel, 0)

/-- Read back the entries of a heap dict object. -/
def read_entries : Nat → Heap → HObj → Option (List (String × JValue))
  | _, _, [] => some []
  | fuel, h, (k, .scalar v) :: rest =>
      (read_entries fuel h rest).map (fun t => (k, v) :: t)
  | fuel, h, (k, .ref a) :: rest =>
      match read_ref fuel h a with
      | none => none
      | some jv =>
          match read_entries fuel h rest with
          | none => none
          | some t => some ((k, jv) :: t)
termination_by fuel _ o => (fuel, o.length + 1)

end

/-- A slot respects the allocation bound: any reference is below `next`. -/
def hval_ok (next : Nat) : HVal → Bool
  | .scalar _ => true
  | .ref a => decide (a < next)

/-- Heap well-formedness: every allocated address and every reference
inside every object is below the next-free address `next`. -/
def heap_closed (h : Heap) (next : Nat) : Bool :=
  h.all (fun ao => decide (ao.1 < next) && ao.2.all (fun kv => hval_ok next kv.2))

/-!
## Association-list lemmas
-/

theorem alookup_aset_self {κ α : Type} [DecidableEq κ] (l : List (κ × α)) (k : κ) (v : α) :
    alookup (aset l k v) k = some v := by
  induction l with
  | nil => simp [aset, alookup]
  | cons kv rest ih =>
      obtain ⟨k', v'⟩ := kv
      by_cases h : k' = k <;> simp [aset, alookup, h, ih]

theorem alookup_aset_ne {κ α : Type} [DecidableEq κ] (l : List (κ × α)) (k k' : κ) (v : α)
    (h : k' ≠ k) : alookup (aset l k v) k' = alookup l k' := by
  have h' : ¬ k = k' := fun hh => h hh.symm
  induction l with
  | nil => simp [aset, alookup, h']
  | cons kv rest ih =>
      obtain ⟨k0, v0⟩ := kv
      by_cases h0 : k0 = k
      · subst h0
        simp [aset, alookup, h']
      · simp [aset, alookup, h0, ih]

theorem alookup_adel_self {κ α : Type} [DecidableEq κ] (l : List (κ × α)) (k : κ) :
    alookup (adel l k) k = none := by
  induction l with
  | nil => simp [adel, alookup]
  | cons kv rest ih =>
      obtain ⟨k0, v0⟩ := kv
      by_cases h0 : k0 = k
      · simpa [adel, h0] using ih
      · simpa [adel, alookup, h0] using ih

theorem alookup_eq_none_of_not_mem {κ α : Type} [DecidableEq κ] (l : List (κ × α)) (k : κ)
    (h : k ∉ akeys l) : alookup l k = none := by
  induction l with
  | nil => simp [alookup]
  | cons kv rest ih =>
      obtain ⟨k0, v0⟩ := kv
      simp only [akeys, List.map_cons, List.mem_cons] at h
      push_neg at h
      have h1 : ¬ k0 = k := fun hh => h.1 hh.symm
      simp [alookup, h1, ih (by simpa [akeys] using h.2)]

theorem aset_ne_nil {κ α : Type} [DecidableEq κ] (l : List (κ × α)) (k : κ) (v : α) :
    aset l k v ≠ [] := by
  cases l with
  | nil => simp [aset]
  | cons kv rest =>
      obtain ⟨k0, v0⟩ := kv
      by_cases h0 : k0 = k <;> simp [aset, h0]

/-!
## Merge lemmas
-/

theorem merge_nil : ∀ e : JObj, merge_profile_data e [] = e := by
  intro e; simp [merge_profile_data]

theorem merge_cons (e : JObj) (k : String) (v : JValue) (rest : JObj) :
    merge_profile_data e ((k, v) :: rest) =
      merge_profile_data (merge_assign e k v) rest := by
  simp [merge_profile_data]

theorem merge_assign_ne_nil (e : JObj) (k : String) (v : JValue) :
    merge_assign e k v ≠ [] := by
  cases v <;> simp only [merge_assign] <;>
    first
      | exact aset_ne_nil ..
      | (cases h : get_sub_obj e k <;> simp [h, aset_ne_nil])

theorem merge_ne_nil (u : JObj) : ∀ e : JObj, e ≠ [] → merge_profile_data e u ≠ [] := by
  induction u with
  | nil => intro e h; simpa [merge_nil] using h
  | cons kv rest ih =>
      intro e _
      obtain ⟨k, v⟩ := kv
      rw [merge_cons]
      exact ih _ (merge_assign_ne_nil e k v)

theorem alookup_merge_assign_ne (e : JObj) (k p : String) (v : JValue) (h : p ≠ k) :
    alookup (merge_assign e k v) p = alookup e p := by
  cases v <;> simp only [merge_assign] <;>
    first
      | exact alookup_aset_ne _ _ _ _ h
      | (cases hg : get_sub_obj e k <;> simp [hg, alookup_aset_ne _ _ _ _ h])

/-- The pointwise characterisation of one merge step (C1 at one key). -/
theorem alookup_merge_assign_self (e : JObj) (k : String) (v : JValue) :
    alookup (merge_assign e k v) k =
      some (match alookup e k, v with
            | some (.obj ro), .obj uo => .obj (merge_profile_data ro uo)
            | _, _ => v) := by
  cases v <;> simp only [merge_assign, get_sub_obj] <;>
    cases he : alookup e k <;>
      first
        | simp [he, alookup_aset_self]
        | (rename_i w; cases w <;> simp [he, alookup_aset_self])

/-- C1 core: the merged object, looked up at any key, follows the
spec's pointwise rule, provided the update object has duplicate-free
keys (as every Python dict does). -/
theorem alookup_merge (u : JObj) : ∀ (e : JObj) (k : String),
    (akeys u).Nodup →
    alookup (merge_profile_data e u) k = merge_spec_at e u k := by
  induction u with
  | nil => intro e k _; simp [merge_nil, merge_spec_at, alookup]
  | cons kv rest ih =>
      intro e k hnd
      obtain ⟨k0, v0⟩ := kv
      have hnd' : (akeys rest).Nodup := by
        simpa [akeys] using hnd.of_cons
      have hk0 : k0 ∉ akeys rest := by
        have := hnd
        simp only [akeys, List.map_cons, List.nodup_cons] at this
        simpa [akeys] using this.1
      rw [merge_cons, ih _ k hnd']
      by_cases hk : k = k0
      · subst hk
        have hrest : alookup rest k = none := alookup_eq_none_of_not_mem rest k hk0
        rw [merge_spec_at, hrest]
        rw [merge_spec_at]
        simp only [alookup, if_pos rfl]
        rw [alookup_merge_assign_self]
        cases he : alookup e k with
        | none => cases v0 <;> simp [he]
        | some w => cases w <;> cases v0 <;> simp [he]
      · have hk' : ¬ k0 = k := fun hh => hk hh.symm
        rw [merge_spec_at, merge_spec_at]
        rw [alookup_merge_assign_ne e k0 k v0 hk]
        simp [alookup, hk']

/-!
## Field-path resolver lemmas
-/

theorem spec_walk_nil_obj : ∀ (parts : List String), parts ≠ [] →
    spec_walk [] parts = false := by
  intro parts h
  cases parts with
  | nil => exact absurd rfl h
  | cons p rest => cases rest <;> simp [spec_walk, alookup]

/-- C7 core: the source's walk and the spec's walk agree on every
mapping and every segment list. -/
theorem walk_eq_spec_walk : ∀ (parts : List String) (m : JObj),
    has_field_walk (.obj m) parts = spec_walk m parts := by
  intro parts
  induction parts with
  | nil => intro m; simp [has_field_walk, spec_walk]
  | cons p rest ih =>
      intro m
      cases rest with
      | nil =>
          cases h : alookup m p with
          | none => simp [has_field_walk, spec_walk, h]
          | some v => simp [has_field_walk, spec_walk, h]
      | cons q rs =>
          cases h : alookup m p with
          | none => simp [has_field_walk, spec_walk, h]
          | some v =>
              cases v with
              | obj m' =>
                  have hl : has_field_walk (.obj m) (p :: q :: rs) =
                      (truthy (.obj m') && has_field_walk (.obj m') (q :: rs)) := by
                    simp [has_field_walk, h]
                  have hr : spec_walk m (p :: q :: rs) = spec_walk m' (q :: rs) := by
                    simp [spec_walk, h]
                  rw [hl, hr, ih m']
                  cases m' with
                  | nil => simp [truthy, spec_walk_nil_obj (q :: rs) (by simp)]
                  | cons a b => simp [truthy]
              | str s => simp [has_field_walk, spec_walk, h]
              | num n => simp [has_field_walk, spec_walk, h]
              | bool b => simp [has_field_walk, spec_walk, h]
              | null => simp [has_field_walk, spec_walk, h]
              | arr xs => simp [has_field_walk, spec_walk, h]

/-!
## Monotonicity of add-only merges
-/

theorem adds_only_entry_congr (e₁ e₂ : JObj) (k : String) (v : JValue)
    (h : alookup e₁ k = alookup e₂ k) :
    adds_only_entry e₁ k v = adds_only_entry e₂ k v := by
  cases v <;> simp only [adds_only_entry, h]

theorem adds_only_transfer (rest : JObj) : ∀ (e : JObj) (k : String) (v : JValue),
    alookup rest k = none → adds_only e rest = true →
    adds_only (merge_assign e k v) rest = true := by
  induction rest with
  | nil => intro e k v _ _; simp [adds_only]
  | cons kv rest' ih =>
      intro e k v hnone ha
      obtain ⟨k', v'⟩ := kv
      have hk' : ¬ k' = k := by
        intro hh
        rw [alookup, if_pos hh] at hnone
        exact Option.noConfusion hnone
      have hrest : alookup rest' k = none := by
        rwa [alookup, if_neg hk'] at hnone
      simp only [adds_only, Bool.and_eq_true] at ha ⊢
      refine ⟨?_, ih e k v hrest ha.2⟩
      rw [adds_only_entry_congr (merge_assign e k v) e k' v'
        (alookup_merge_assign_ne e k k' v (fun hh => hk' hh))]
      exact ha.1

mutual

theorem assign_mono : ∀ (v : JValue) (e : JObj) (k : String),
    update_wf_val v = true → adds_only_entry e k v = true →
    ∀ parts, has_field_walk (.obj e) parts = true →
      has_field_walk (.obj (merge_assign e k v)) parts = true
  | v, e, k, _, _, [], _ => by simp [has_field_walk]
  | v, e, k, hwf, ha, p :: ps, h => by
      cases hep : alookup e p with
      | none => simp [has_field_walk, hep] at h
      | some w =>
          simp only [has_field_walk, hep, Bool.and_eq_true] at h
          obtain ⟨ht, hw⟩ := h
          by_cases hpk : p = k
          · subst hpk
            cases v with
            | obj uo =>
                cases w with
                | obj eo =>
                    have hsub : get_sub_obj e p = some eo := by
                      simp [get_sub_obj, hep]
                    have ha' : adds_only eo uo = true := by
                      simpa only [adds_only_entry, hep] using ha
                    have hwf' : update_wf uo = true := by
                      simpa only [update_wf_val] using hwf
                    have heo : eo ≠ [] := by
                      simp only [truthy, Bool.not_eq_true'] at ht
                      simpa [List.isEmpty_iff] using ht
                    simp only [merge_assign, hsub, has_field_walk, alookup_aset_self,
                      Bool.and_eq_true]
                    refine ⟨?_, merge_mono uo eo hwf' ha' ps hw⟩
                    simp [truthy, List.isEmpty_iff, merge_ne_nil uo eo heo]
                | str s =>
                    simp only [adds_only_entry, hep, Bool.not_eq_true'] at ha
                    rw [ha] at ht
                    exact Bool.noConfusion ht
                | num n =>
                    simp only [adds_only_entry, hep, Bool.not_eq_true'] at ha
                    rw [ha] at ht
                    exact Bool.noConfusion ht
                | bool b =>
                    simp only [adds_only_entry, hep, Bool.not_eq_true'] at ha
                    rw [ha] at ht
                    exact Bool.noConfusion ht
                | null =>
                    simp only [adds_only_entry, hep, Bool.not_eq_true'] at ha
                    rw [ha] at ht
                    exact Bool.noConfusion ht
                | arr xs =>
                    simp only [adds_only_entry, hep, Bool.not_eq_true'] at ha
                    rw [ha] at ht
                    exact Bool.noConfusion ht
            | str s =>
                simp only [adds_only_entry, hep, Bool.not_eq_true'] at ha
                rw [ha] at ht
                exact Bool.noConfusion ht
            | num n =>
                simp only [adds_only_entry, hep, Bool.not_eq_true'] at ha
                rw [ha] at ht
                exact Bool.noConfusion ht
            | bool b =>
                simp only [adds_only_entry, hep, Bool.not_eq_true'] at ha
                rw [ha] at ht
                exact Bool.noConfusion ht
            | null =>
                simp only [adds_only_entry, hep, Bool.not_eq_true'] at ha
                rw [ha] at ht
                exact Bool.noConfusion ht
            | arr xs =>
                simp only [adds_only_entry, hep, Bool.not_eq_true'] at ha
                rw [ha] at ht
                exact Bool.noConfusion ht
          · simp [has_field_walk, alookup_merge_assign_ne e k p v hpk, hep, ht, hw]
termination_by v => sizeOf v

theorem merge_mono : ∀ (u e : JObj),
    update_wf u = true → adds_only e u = true →
    ∀ parts, has_field_walk (.obj e) parts = true →
      has_field_walk (.obj (merge_profile_data e u)) parts = true
  | [], e, _, _, parts, h => by simpa [merge_nil] using h
  | (k, v) :: rest, e, hwf, ha, parts, h => by
      simp only [update_wf, Bool.and_eq_true] at hwf
      simp only [adds_only, Bool.and_eq_true] at ha
      rw [merge_cons]
      exact merge_mono rest (merge_assign e k v) hwf.2
        (adds_only_transfer rest e k v (Option.isNone_iff_eq_none.mp hwf.1.1) ha.2)
        parts (assign_mono v e k hwf.1.2 ha.1 parts h)
termination_by u _ => sizeOf u

end

/-- C6 core: an add-only, duplicate-free update never makes a previously
resolving field path stop resolving. -/
theorem has_field_mono (e u : JObj) (hwf : update_wf u = true)
    (ha : adds_only e u = true) (f : String) (h : has_field e f = true) :
    has_field (merge_profile_data e u) f = true :=
  merge_mono u e hwf ha (split_dot f) h

/-- C6 core, phrased on the missing-required list. -/
theorem missing_required_mono (e u : JObj) (hwf : update_wf u = true)
    (ha : adds_only e u = true) :
    (calculate_completeness (merge_profile_data e u)).2.1 ⊆
      (calculate_completeness e).2.1 := by
  intro x hx
  simp only [calculate_completeness, List.mem_filter, Bool.not_eq_true'] at hx ⊢
  refine ⟨hx.1, ?_⟩
  by_contra hne
  have hx2 := hx.2
  rw [has_field_mono e u hwf ha x (Bool.not_eq_false _ ▸ Bool.of_not_eq_false hne)] at hx2
  exact Bool.noConfusion hx2

/-!
## Heap frame lemmas: the merge writes only to fresh addresses
-/

theorem heap_closed_lookup (h : Heap) (n : Nat) (hcl : heap_closed h n = true)
    (a : Nat) (o : HObj) (ha : alookup h a = some o) :
    a < n ∧ o.all (fun kv => hval_ok n kv.2) = true := by
  induction h with
  | nil => simp [alookup] at ha
  | cons p rest ih =>
      obtain ⟨a0, o0⟩ := p
      simp only [heap_closed, List.all_cons, Bool.and_eq_true, decide_eq_true_eq] at hcl
      by_cases h0 : a0 = a
      · subst h0
        rw [alookup, if_pos rfl] at ha
        cases ha
        exact ⟨hcl.1.1, hcl.1.2⟩
      · rw [alookup, if_neg h0] at ha
        exact ih (by simpa [heap_closed] using hcl.2) ha

mutual

theorem merge_heap_frame : ∀ (fuel : Nat) (h : Heap) (next ea ua : Nat)
    (h' : Heap) (next' ra : Nat),
    merge_heap fuel h next ea ua = some (h', next', ra) →
    next + 1 ≤ next' ∧ ra = next ∧ ∀ a, a < next → alookup h' a = alookup h a
  | 0, h, next, ea, ua, h', next', ra, hm => by simp [merge_heap] at hm
  | fuel + 1, h, next, ea, ua, h', next', ra, hm => by
      rw [merge_heap] at hm
      cases he : alookup h ea with
      | none => rw [he] at hm; simp only [] at hm; exact Option.noConfusion hm
      | some eObj =>
          rw [he] at hm
          cases hu : alookup h ua with
          | none => rw [hu] at hm; simp only [] at hm; exact Option.noConfusion hm
          | some uObj =>
              rw [hu] at hm
              simp only [] at hm
              cases hent : merge_heap_entries fuel (aset h next eObj) (next + 1) next uObj with
              | none => rw [hent] at hm; simp only [] at hm; exact Option.noConfusion hm
              | some pr =>
                  obtain ⟨h₁, next₁⟩ := pr
                  rw [hent] at hm
                  simp only [] at hm
                  have fr := merge_heap_entries_frame fuel (aset h next eObj) (next + 1)
                    next uObj h₁ next₁ hent
                  simp only [Option.some.injEq, Prod.mk.injEq] at hm
                  obtain ⟨e1, e2, e3⟩ := hm
                  refine ⟨e2 ▸ fr.1, e3.symm, ?_⟩
                  intro a halt
                  rw [← e1, fr.2 a (Nat.lt_succ_of_lt halt) (Nat.ne_of_lt halt)]
                  exact alookup_aset_ne h next a eObj (Nat.ne_of_lt halt)
termination_by fuel _ _ _ _ _ _ _ _ => (fuel, 0)

theorem merge_heap_entries_frame : ∀ (fuel : Nat) (h : Heap) (next ra : Nat)
    (entries : HObj) (h' : Heap) (next' : Nat),
    merge_heap_entries fuel h next ra entries = some (h', next') →
    next ≤ next' ∧ ∀ a, a < next → a ≠ ra → alookup h' a = alookup h a
  | fuel, h, next, ra, [], h', next', hm => by
      rw [merge_heap_entries] at hm
      cases hm
      exact ⟨Nat.le_refl _, fun a _ _ => rfl⟩
  | fuel, h, next, ra, (k, v) :: rest, h', next', hm => by
      rw [merge_heap_entries] at hm
      cases hra : alookup h ra with
      | none => rw [hra] at hm; simp only [] at hm; exact Option.noConfusion hm
      | some rObj =>
          rw [hra] at hm
          simp only [] at hm
          cases v with
          | scalar sv =>
              simp only [] at hm
              have ih := merge_heap_entries_frame fuel
                (aset h ra (aset rObj k (.scalar sv))) next ra rest h' next' hm
              exact ⟨ih.1, fun a ha hne =>
                (ih.2 a ha hne).trans (alookup_aset_ne _ ra a _ hne)⟩
          | ref ua' =>
              simp only [] at hm
              cases hgr : get_ref rObj k with
              | none =>
                  rw [hgr] at hm
                  simp only [] at hm
                  have ih := merge_heap_entries_frame fuel
                    (aset h ra (aset rObj k (.ref ua'))) next ra rest h' next' hm
                  exact ⟨ih.1, fun a ha hne =>
                    (ih.2 a ha hne).trans (alookup_aset_ne _ ra a _ hne)⟩
              | some a' =>
                  rw [hgr] at hm
                  simp only [] at hm
                  cases hmh : merge_heap fuel h next a' ua' with
                  | none => rw [hmh] at hm; simp only [] at hm; exact Option.noConfusion hm
                  | some tr =>
                      obtain ⟨h₁, next₁, sub⟩ := tr
                      rw [hmh] at hm
                      simp only [] at hm
                      have fr := merge_heap_frame fuel h next a' ua' h₁ next₁ sub hmh
                      cases hra1 : alookup h₁ ra with
                      | none => rw [hra1] at hm; simp only [] at hm; exact Option.noConfusion hm
                      | some rObj' =>
                          rw [hra1] at hm
                          simp only [] at hm
                          have ih := merge_heap_entries_frame fuel
                            (aset h₁ ra (aset rObj' k (.ref sub))) next₁ ra rest
                            h' next' hm
                          refine ⟨Nat.le_trans (Nat.le_trans (Nat.le_succ next) fr.1) ih.1, ?_⟩
                          intro a ha hne
                          rw [ih.2 a (Nat.lt_of_lt_of_le ha
                              (Nat.le_trans (Nat.le_succ next) fr.1)) hne,
                            alookup_aset_ne h₁ ra a _ hne]
                          exact fr.2.2 a ha
termination_by fuel _ _ _ entries _ _ _ => (fuel, entries.length + 1)

end

mutual

theorem read_ref_agree : ∀ (h h₁ : Heap) (n : Nat),
    (∀ a, a < n → alookup h₁ a = alookup h a) → heap_closed h n = true →
    ∀ (fuel a : Nat), a < n → read_ref fuel h₁ a = read_ref fuel h a
  | _, _, _, _, _, 0, _, _ => by rw [read_ref, read_ref]
  | h, h₁, n, hag, hcl, fuel + 1, a, ha => by
      rw [read_ref, read_ref, hag a ha]
      cases ho : alookup h a with
      | none => rfl
      | some o =>
          simp only []
          rw [read_entries_agree h h₁ n hag hcl fuel o
            (heap_closed_lookup h n hcl a o ho).2]
termination_by _ _ _ _ _ fuel _ _ => (fuel, 0)

theorem read_entries_agree : ∀ (h h₁ : Heap) (n : Nat),
    (∀ a, a < n → alookup h₁ a = alookup h a) → heap_closed h n = true →
    ∀ (fuel : Nat) (o : HObj), o.all (fun kv => hval_ok n kv.2) = true →
    read_entries fuel h₁ o = read_entries fuel h o
  | _, _, _, _, _, _, [], _ => by rw [read_entries, read_entries]
  | h, h₁, n, hag, hcl, fuel, (k, .scalar v) :: rest, hok => by
      simp only [List.all_cons, Bool.and_eq_true] at hok
      rw [read_entries, read_entries,
        read_entries_agree h h₁ n hag hcl fuel rest hok.2]
  | h, h₁, n, hag, hcl, fuel, (k, .ref b) :: rest, hok => by
      simp only [List.all_cons, Bool.and_eq_true, hval_ok, decide_eq_true_eq] at hok
      rw [read_entries, read_entries, read_ref_agree h h₁ n hag hcl fuel b hok.1,
        read_entries_agree h h₁ n hag hcl fuel rest hok.2]
termination_by _ _ _ _ _ fuel o _ => (fuel, o.length + 1)

end

/-!
## Claim theorems
-/

/-- **C1**: for every pair of mappings, `merge_profile_data` looked up at
any key of `updates` yields the recursive merge when both the existing
and the update values are mappings, and the update value outright
otherwise (scalars and sequences replace mappings and vice versa), while
keys of `existing` not mentioned in `updates` keep their existing values
— the pointwise rule `merge_spec_at`. The `Nodup` hypothesis states that
`updates` is a genuine dict (Python dicts cannot repeat a key). -/
theorem merge_profile_data_pointwise (existing updates : JObj) (k : String)
    (hu : (akeys updates).Nodup) :
    alookup (merge_profile_data existing updates) k = merge_spec_at existing updates k :=
  alookup_merge updates existing k hu

/-- Witness for C1: merging `{"address": {"city": "NY"}}` into
`{"address": {"street": "Main St"}}` at key `"address"` follows the
pointwise rule, and the rule's value there is the recursive merge
retaining both keys. -/
theorem merge_profile_data_pointwise_witness :
    alookup (merge_profile_data [("address", JValue.obj [("street", JValue.str "Main St")])]
        [("address", JValue.obj [("city", JValue.str "NY")])]) "address" =
      merge_spec_at [("address", JValue.obj [("street", JValue.str "Main St")])]
        [("address", JValue.obj [("city", JValue.str "NY")])] "address" ∧
    merge_spec_at [("address", JValue.obj [("street", JValue.str "Main St")])]
        [("address", JValue.obj [("city", JValue.str "NY")])] "address" =
      some (JValue.obj [("street", JValue.str "Main St"), ("city", JValue.str "NY")]) := by
  constructor
  · exact merge_profile_data_pointwise
      [("address", JValue.obj [("street", JValue.str "Main St")])]
      [("address", JValue.obj [("city", JValue.str "NY")])] "address" (by decide)
  · simp [merge_spec_at, merge_profile_data, merge_assign, get_sub_obj, alookup, aset]

/-- **C2**: `calculate_completeness` returns `missing_required` as exactly
the required paths `[name, email, type, address.street, address.city,
address.country]` failing the field-path check in configuration order,
`missing_optional` likewise for `[address.state, address.zipcode,
contact.phone, contact.mobile]`, and the percentage as the integer
truncation of `100 * (10 - |missing_required| - |missing_optional|) / 10`. -/
theorem calculate_completeness_spec (profile : JObj) :
    calculate_completeness profile =
      (100 * (10 - (["name", "email", "type", "address.street", "address.city",
            "address.country"].filter (fun f => !has_field profile f)).length
          - (["address.state", "address.zipcode", "contact.phone",
            "contact.mobile"].filter (fun f => !has_field profile f)).length) / 10,
       ["name", "email", "type", "address.street", "address.city",
        "address.country"].filter (fun f => !has_field profile f),
       ["address.state", "address.zipcode", "contact.phone",
        "contact.mobile"].filter (fun f => !has_field profile f)) := by
  simp [calculate_completeness, required_fields, optional_fields, Nat.mul_comm]

/-- **C7**: `has_field` returns true exactly when every intermediate
segment of the dot-split path resolves to a mapping containing the next
segment and the final segment's value is present and truthy, and false
on any missing segment, non-mapping intermediate, or falsy terminal
value (`spec_has_field` is that specification verbatim; both sides are
pure functions of their arguments, so the check has no side effects). -/
theorem has_field_iff_spec (data : JObj) (field_path : String) :
    has_field data field_path = spec_has_field data field_path :=
  walk_eq_spec_walk (split_dot field_path) data

/-- **C10**: when the input mapping contains `"name"`, the stored profile
is exactly `{"name": <that value>}` even for an empty or falsy value
(the `"Unknown"` default applies only to an absent key), and starting
with `{"name": ""}` yields every required field missing — `"name"`
included — and completeness 0. -/
theorem start_profile_session_name_verbatim (store : Store) (data : JObj)
    (session_id created_at updated_at : String) (v : JValue)
    (h : alookup data "name" = some v) :
    alookup (start_profile_session store data session_id created_at updated_at).1
        "profile" = some (.obj [("name", v)]) ∧
    alookup (start_profile_session store data session_id created_at updated_at).2
        session_id = some
          { session_id := session_id, status := "in_progress",
            profile := [("name", v)], conversation_turn := 1,
            created_at := created_at, updated_at := updated_at } ∧
    (v = .str "" →
      alookup (start_profile_session store data session_id created_at updated_at).1
          "missing_required_fields" = some (.arr (["name", "email", "type",
            "address.street", "address.city", "address.country"].map .str)) ∧
      alookup (start_profile_session store data session_id created_at updated_at).1
          "completeness_percentage" = some (.num 0)) := by
  refine ⟨?_, ?_, ?_⟩
  · simp [start_profile_session, h, alookup]
  · simp [start_profile_session, h, alookup_aset_self]
  · intro hv
    subst hv
    constructor <;> simp [start_profile_session, h, alookup] <;> rfl

/-- Witness for C10: `start_profile_session({"name": ""})` keeps the
empty name verbatim and reports zero completeness. -/
theorem start_profile_session_name_verbatim_witness :
    alookup (start_profile_session [] [("name", JValue.str "")] "SESSION-1" "t0" "t0").1
        "profile" = some (.obj [("name", JValue.str "")]) ∧
    alookup (start_profile_session [] [("name", JValue.str "")] "SESSION-1" "t0" "t0").1
        "missing_required_fields" = some (.arr (["name", "email", "type",
          "address.street", "address.city", "address.country"].map .str)) ∧
    alookup (start_profile_session [] [("name", JValue.str "")] "SESSION-1" "t0" "t0").1
        "completeness_percentage" = some (.num 0) := by
  have h := start_profile_session_name_verbatim [] [("name", JValue.str "")]
    "SESSION-1" "t0" "t0" (JValue.str "") rfl
  exact ⟨h.1, (h.2.2 rfl).1, (h.2.2 rfl).2⟩

/-- **C3**: once a session's status is `"complete"`, any further
`update_profile_session` call — whatever the updates mapping, including
one overwriting required data with falsy or incomplete values — reports
and stores status `"complete"`; the status never reverts to
`"in_progress"`. -/
theorem update_profile_session_sticky_complete (store : Store)
    (session_id : String) (updates : JObj) (now : String) (s : Session)
    (hs : alookup store session_id = some s) (hc : s.status = "complete") :
    alookup (update_profile_session store session_id updates now).1 "status"
        = some (.str "complete") ∧
    (alookup (update_profile_session store session_id updates now).2 session_id).map
        Session.status = some "complete" := by
  simp only [update_profile_session, hs]
  constructor
  · rw [hc]
    split <;> simp [alookup]
  · rw [alookup_aset_self]
    rw [hc]
    split <;> simp

/-- Witness for C3: a complete session updated with `{"name": ""}` —
falsy data overwriting a required field — still reports `"complete"`. -/
theorem update_profile_session_sticky_complete_witness :
    alookup (update_profile_session
        [("SESSION-1", ⟨"SESSION-1", "complete", [("name", JValue.str "John")], 2, "t0", "t0"⟩)]
        "SESSION-1" [("name", JValue.str "")] "t1").1 "status"
      = some (.str "complete") :=
  (update_profile_session_sticky_complete
    [("SESSION-1", ⟨"SESSION-1", "complete", [("name", JValue.str "John")], 2, "t0", "t0"⟩)]
    "SESSION-1" [("name", JValue.str "")] "t1" _ rfl rfl).1

/-- **C4**: finalizing a session whose profile still misses a required
field returns a `VALIDATION_ERROR` carrying exactly the missing required
fields, leaves the store (hence the session record — profile, status,
turn count, timestamps) completely unchanged, and a subsequent status
call on the same id still succeeds (its view has no `error` key and
echoes the session id). -/
theorem finalize_profile_session_incomplete (store : Store)
    (session_id profile_id finalized_at : String) (minutes : Int) (s : Session)
    (hs : alookup store session_id = some s)
    (hmiss : (calculate_completeness s.profile).2.1 ≠ []) :
    alookup (finalize_profile_session store session_id profile_id minutes
        finalized_at).1 "error" = some (.str "VALIDATION_ERROR") ∧
    alookup (finalize_profile_session store session_id profile_id minutes
        finalized_at).1 "missing_fields"
      = some (.arr ((calculate_completeness s.profile).2.1.map .str)) ∧
    (finalize_profile_session store session_id profile_id minutes
        finalized_at).2 = store ∧
    alookup (get_session_status (finalize_profile_session store session_id
        profile_id minutes finalized_at).2 session_id) "error" = none ∧
    alookup (get_session_status (finalize_profile_session store session_id
        profile_id minutes finalized_at).2 session_id) "session_id"
      = some (.str session_id) := by
  have hne : (calculate_completeness s.profile).2.1.isEmpty = false := by
    simpa [List.isEmpty_iff] using hmiss
  refine ⟨?_, ?_, ?_, ?_, ?_⟩ <;>
    simp [finalize_profile_session, get_session_status, hs, hne, alookup]

/-- Witness for C4: finalizing a fresh name-only session fails with
`VALIDATION_ERROR` and leaves the store unchanged. -/
theorem finalize_profile_session_incomplete_witness :
    alookup (finalize_profile_session
        [("SESSION-1", ⟨"SESSION-1", "in_progress", [("name", JValue.str "John")], 1, "t0", "t0"⟩)]
        "SESSION-1" "PROF-1" 0 "t9").1 "error" = some (.str "VALIDATION_ERROR") ∧
    (finalize_profile_session
        [("SESSION-1", ⟨"SESSION-1", "in_progress", [("name", JValue.str "John")], 1, "t0", "t0"⟩)]
        "SESSION-1" "PROF-1" 0 "t9").2 =
      [("SESSION-1", ⟨"SESSION-1", "in_progress", [("name", JValue.str "John")], 1, "t0", "t0"⟩)] := by
  have h := finalize_profile_session_incomplete
    [("SESSION-1", ⟨"SESSION-1", "in_progress", [("name", JValue.str "John")], 1, "t0", "t0"⟩)]
    "SESSION-1" "PROF-1" "t9" 0 _ rfl (by decide)
  exact ⟨h.1, h.2.2.1⟩

/-- `sub_obj_checked` agrees with the total `sub_obj_or_empty` wherever
it returns. -/
theorem sub_obj_checked_agrees (profile : JObj) (k : String) (o : JObj)
    (h : sub_obj_checked profile k = some o) : sub_obj_or_empty profile k = o := by
  unfold sub_obj_checked at h
  unfold sub_obj_or_empty
  cases ha : alookup profile k with
  | none =>
      rw [ha] at h
      simp only [] at h
      cases h
      rfl
  | some v =>
      rw [ha] at h
      cases v <;> simp only [] at h <;>
        first
          | (cases h; rfl)
          | exact Option.noConfusion h

/-- `format_address_checked` agrees with the total `format_address`
wherever it returns. -/
theorem format_address_checked_agrees (address : JObj) (s : String)
    (h : format_address_checked address = some s) : format_address address = s := by
  unfold format_address_checked at h
  by_cases hall : ([(alookup address "street").getD (.str ""),
      (alookup address "city").getD (.str ""),
      (alookup address "state").getD (.str ""),
      (alookup address "zipcode").getD (.str ""),
      (alookup address "country").getD (.str "")].filter truthy).all jval_is_str = true
  · rw [if_pos hall] at h
    cases h
    rfl
  · rw [if_neg hall] at h
    exact Option.noConfusion h

/-- `finalize_profile_session_run` agrees with the total
`finalize_profile_session` on every input where the source does not
raise (i.e. wherever the checked version returns a value). -/
theorem finalize_run_agrees (store : Store) (session_id profile_id finalized_at : String)
    (minutes : Int) (r : JObj × Store)
    (h : finalize_profile_session_run store session_id profile_id minutes finalized_at
      = some r) :
    r = finalize_profile_session store session_id profile_id minutes finalized_at := by
  unfold finalize_profile_session_run at h
  unfold finalize_profile_session
  cases hs : alookup store session_id with
  | none =>
      rw [hs] at h
      simp only [] at h ⊢
      cases h
      rfl
  | some session =>
      rw [hs] at h
      simp only [] at h ⊢
      by_cases hmr : (calculate_completeness session.profile).2.1.isEmpty = true
      · rw [hmr] at h ⊢
        simp only [Bool.not_true, if_neg (by simp : ¬ (false = true))] at h ⊢
        cases ha : sub_obj_checked session.profile "address" with
        | none => rw [ha] at h; exact Option.noConfusion h
        | some address =>
            rw [ha] at h
            simp only [] at h
            cases hf : format_address_checked address with
            | none => rw [hf] at h; exact Option.noConfusion h
            | some address_formatted =>
                rw [hf] at h
                simp only [] at h
                cases hc : sub_obj_checked session.profile "contact" with
                | none => rw [hc] at h; exact Option.noConfusion h
                | some contact =>
                    rw [hc] at h
                    simp only [] at h
                    cases h
                    rw [sub_obj_checked_agrees session.profile "address" address ha,
                      sub_obj_checked_agrees session.profile "contact" contact hc,
                      format_address_checked_agrees address address_formatted hf]
      · have hmr' : (calculate_completeness session.profile).2.1.isEmpty = false :=
          Bool.eq_false_iff.mpr hmr
        rw [hmr'] at h ⊢
        simp only [Bool.not_false, if_pos rfl] at h ⊢
        cases h
        rfl

/-- **C5, counterexample**: the claim fails as stated. A stored session
can have every required field present and still not be finalized: with
an integer zipcode — a truthy non-string address component, reachable
through an ordinary update — the source raises `TypeError` inside
`", ".join` (line 270) before `del SESSIONS[session_id]` (line 309), so
finalize neither returns a success result nor removes the session. -/
theorem finalize_complete_can_raise :
    (calculate_completeness
      [("name", JValue.str "John"), ("email", JValue.str "j@x.com"),
       ("type", JValue.str "individual"),
       ("address", JValue.obj [("street", JValue.str "123 Main St"),
         ("city", JValue.str "NY"), ("country", JValue.str "US"),
         ("zipcode", JValue.num 10001)])]).2.1 = [] ∧
    finalize_profile_session_run
      [("SESSION-1", ⟨"SESSION-1", "complete",
        [("name", JValue.str "John"), ("email", JValue.str "j@x.com"),
         ("type", JValue.str "individual"),
         ("address", JValue.obj [("street", JValue.str "123 Main St"),
           ("city", JValue.str "NY"), ("country", JValue.str "US"),
           ("zipcode", JValue.num 10001)])],
        3, "t0", "t3"⟩)]
      "SESSION-1" "PROF-1" 0 "t9" = none := by
  constructor
  · decide
  · rfl

/-- **C5, amended**: for every stored session whose profile has all
required fields present *and* on which the success branch raises no
exception (`finalize_success_safe`: the `address`/`contact` entries are
mappings when present and every truthy address component is a string —
true of every profile the documented conversation flow builds),
finalize succeeds (`success: true`) and removes the session from the
store: a subsequent `status`, `update`, or second `finalize` on the same
id all report `SESSION_NOT_FOUND`, so the session is destroyed exactly
once. On the remaining in-scope states the source instead raises before
deleting (`finalize_complete_can_raise`). -/
theorem finalize_profile_session_complete_deletes (store : Store)
    (session_id profile_id finalized_at now pid2 fat2 : String)
    (minutes mins2 : Int) (updates : JObj) (s : Session)
    (hs : alookup store session_id = some s)
    (hcomp : (calculate_completeness s.profile).2.1 = [])
    (hsafe : finalize_success_safe s.profile = true) :
    (finalize_profile_session_run store session_id profile_id minutes
        finalized_at).map Prod.snd = some (adel store session_id) ∧
    (finalize_profile_session_run store session_id profile_id minutes
        finalized_at).map (fun r => alookup r.1 "success")
      = some (some (.bool true)) ∧
    alookup (adel store session_id) session_id = none ∧
    get_session_status (adel store session_id) session_id
      = session_not_found session_id ∧
    update_profile_session (adel store session_id) session_id updates now
      = (session_not_found session_id, adel store session_id) ∧
    finalize_profile_session_run (adel store session_id) session_id pid2 mins2 fat2
      = some (session_not_found session_id, adel store session_id) := by
  have hemp : (calculate_completeness s.profile).2.1.isEmpty = true := by
    simp [hcomp]
  unfold finalize_success_safe at hsafe
  cases ha : sub_obj_checked s.profile "address" with
  | none =>
      rw [ha] at hsafe
      simp only [] at hsafe
      exact Bool.noConfusion hsafe
  | some address =>
      rw [ha] at hsafe
      simp only [Bool.and_eq_true, Option.isSome_iff_exists] at hsafe
      obtain ⟨⟨fmt, hfmt⟩, ⟨contact, hcont⟩⟩ := hsafe
      have hgone : alookup (adel store session_id) session_id = none :=
        alookup_adel_self store session_id
      refine ⟨?_, ?_, hgone, ?_, ?_, ?_⟩
      · simp [finalize_profile_session_run, hs, hemp, ha, hfmt, hcont]
      · simp [finalize_profile_session_run, hs, hemp, ha, hfmt, hcont, alookup]
      · simp [get_session_status, hgone]
      · simp [update_profile_session, hgone]
      · simp [finalize_profile_session_run, hgone]

/-- Witness for the amended C5: finalizing a fully filled, raise-free
session succeeds, and a status retry on the deleted store reports
`SESSION_NOT_FOUND`. -/
theorem finalize_profile_session_complete_deletes_witness :
    (finalize_profile_session_run
        [("SESSION-1", ⟨"SESSION-1", "complete",
          [("name", JValue.str "John"), ("email", JValue.str "j@x.com"),
           ("type", JValue.str "individual"),
           ("address", JValue.obj [("street", JValue.str "123 Main St"),
             ("city", JValue.str "NY"), ("country", JValue.str "US")])],
          3, "t0", "t3"⟩)]
        "SESSION-1" "PROF-1" 0 "t9").map (fun r => alookup r.1 "success")
      = some (some (.bool true)) ∧
    get_session_status (adel
        [("SESSION-1", ⟨"SESSION-1", "complete",
          [("name", JValue.str "John"), ("email", JValue.str "j@x.com"),
           ("type", JValue.str "individual"),
           ("address", JValue.obj [("street", JValue.str "123 Main St"),
             ("city", JValue.str "NY"), ("country", JValue.str "US")])],
          3, "t0", "t3"⟩)] "SESSION-1") "SESSION-1"
      = session_not_found "SESSION-1" := by
  have h := finalize_profile_session_complete_deletes
    [("SESSION-1", ⟨"SESSION-1", "complete",
      [("name", JValue.str "John"), ("email", JValue.str "j@x.com"),
       ("type", JValue.str "individual"),
       ("address", JValue.obj [("street", JValue.str "123 Main St"),
         ("city", JValue.str "NY"), ("country", JValue.str "US")])],
      3, "t0", "t3"⟩)]
    "SESSION-1" "PROF-1" "t9" "tz" "PROF-2" "tz2" 0 0 [] _ rfl (by decide) (by decide)
  exact ⟨h.2.1, h.2.2.2.1⟩

/-- **C6, counterexample**: an update may overwrite a present required
field with a falsy value, so the reported `missing_required` list can
grow. Before the update the session missing `name` is reported without
`"name"`; updating with `{"name": ""}` reports all six required fields
missing, and that list is not a subset of the earlier one. -/
theorem update_profile_session_missing_can_grow :
    alookup (get_session_status
        [("SESSION-1", ⟨"SESSION-1", "in_progress",
          [("name", JValue.str "John")], 1, "t0", "t0"⟩)]
        "SESSION-1") "missing_required_fields" =
      some (.arr (["email", "type", "address.street", "address.city",
        "address.country"].map JValue.str)) ∧
    alookup (update_profile_session
        [("SESSION-1", ⟨"SESSION-1", "in_progress",
          [("name", JValue.str "John")], 1, "t0", "t0"⟩)]
        "SESSION-1" [("name", JValue.str "")] "t1").1 "missing_required_fields" =
      some (.arr (["name", "email", "type", "address.street", "address.city",
        "address.country"].map JValue.str)) ∧
    ¬ ((["name", "email", "type", "address.street", "address.city",
        "address.country"] : List String) ⊆
       ["email", "type", "address.street", "address.city", "address.country"]) := by
  refine ⟨rfl, ?_, by decide⟩
  have hm : merge_profile_data [("name", JValue.str "John")] [("name", JValue.str "")]
      = [("name", JValue.str "")] := by
    simp [merge_profile_data, merge_assign, get_sub_obj, alookup, aset]
  simp only [update_profile_session, alookup, hm]
  rfl

/-- **C6, amended**: for updates that only add data — every entry either
merges mapping-into-mapping (recursively add-only), adds a key the
profile lacks, or replaces a falsy value — the `missing_required` list
reported by `update_profile_session` after the update is a subset of the
one computed from the profile before it, at every step of any update
sequence (the stored profile after the call is the merged profile, so
the argument composes across calls). -/
theorem update_missing_required_monotone (store : Store) (session_id now : String)
    (updates : JObj) (s : Session)
    (hs : alookup store session_id = some s)
    (hwf : update_wf updates = true)
    (ha : adds_only s.profile updates = true) :
    alookup (update_profile_session store session_id updates now).1
        "missing_required_fields"
      = some (.arr ((calculate_completeness
          (merge_profile_data s.profile updates)).2.1.map .str)) ∧
    (calculate_completeness (merge_profile_data s.profile updates)).2.1 ⊆
      (calculate_completeness s.profile).2.1 ∧
    (alookup (update_profile_session store session_id updates now).2 session_id).map
        (fun s' => s'.profile)
      = some (merge_profile_data s.profile updates) := by
  refine ⟨?_, missing_required_mono s.profile updates hwf ha, ?_⟩
  · simp [update_profile_session, hs, alookup]
  · simp [update_profile_session, hs, alookup_aset_self]

/-- Witness for the amended C6: adding an email to a name-only profile
is add-only, and the missing-required list shrinks accordingly. -/
theorem update_missing_required_monotone_witness :
    (calculate_completeness (merge_profile_data [("name", JValue.str "John")]
        [("email", JValue.str "j@x.com")])).2.1 ⊆
      (calculate_completeness [("name", JValue.str "John")]).2.1 :=
  (update_missing_required_monotone
    [("SESSION-1", ⟨"SESSION-1", "in_progress",
      [("name", JValue.str "John")], 1, "t0", "t0"⟩)]
    "SESSION-1" "t1" [("email", JValue.str "j@x.com")] _ rfl
    (by simp [update_wf, update_wf_val, alookup])
    (by simp [adds_only, adds_only_entry, alookup])).2.1

/-- **C9, counterexample**: a successful update's response does *not*
contain `created_at` (lines 215-225 return `updated_at` instead), while
the start response does — so the update view is not the start view with
all nine of the claimed fields including `created_at`. -/
theorem update_response_lacks_created_at :
    alookup (update_profile_session
        [("SESSION-1", ⟨"SESSION-1", "in_progress",
          [("name", JValue.str "John")], 1, "t0", "t0"⟩)]
        "SESSION-1" [] "t1").1 "session_id" = some (.str "SESSION-1") ∧
    alookup (update_profile_session
        [("SESSION-1", ⟨"SESSION-1", "in_progress",
          [("name", JValue.str "John")], 1, "t0", "t0"⟩)]
        "SESSION-1" [] "t1").1 "created_at" = none ∧
    alookup (start_profile_session [] [("name", JValue.str "John")]
        "SESSION-1" "t0" "t0").1 "created_at" = some (.str "t0") := by
  have hm : merge_profile_data [("name", JValue.str "John")] [] =
      [("name", JValue.str "John")] := merge_nil _
  refine ⟨?_, ?_, rfl⟩ <;>
    (simp only [update_profile_session, alookup, hm]; rfl)

/-- **C9, amended**: a successful `update_profile_session` response has
exactly the start view's fields with `created_at` replaced by
`updated_at`: `session_id`, `status`, `completeness_percentage`,
`profile`, `missing_required_fields`, `missing_optional_fields`,
`next_prompt`, `conversation_turn`, and `updated_at`, in that order. -/
theorem update_profile_session_view_fields (store : Store)
    (session_id now : String) (updates : JObj) (s : Session)
    (hs : alookup store session_id = some s) :
    akeys (update_profile_session store session_id updates now).1 =
      ["session_id", "status", "completeness_percentage", "profile",
       "missing_required_fields", "missing_optional_fields", "next_prompt",
       "conversation_turn", "updated_at"] ∧
    ∀ (data : JObj) (sid t1 t2 : String),
      akeys (start_profile_session store data sid t1 t2).1 =
        ["session_id", "status", "completeness_percentage", "profile",
         "missing_required_fields", "missing_optional_fields", "next_prompt",
         "conversation_turn", "created_at"] := by
  constructor
  · simp [update_profile_session, hs, akeys]
  · intro data sid t1 t2
    simp [start_profile_session, akeys]

/-- Witness for the amended C9: the update view fields on a concrete
session. -/
theorem update_profile_session_view_fields_witness :
    akeys (update_profile_session
        [("SESSION-1", ⟨"SESSION-1", "in_progress",
          [("name", JValue.str "John")], 1, "t0", "t0"⟩)]
        "SESSION-1" [] "t1").1 =
      ["session_id", "status", "completeness_percentage", "profile",
       "missing_required_fields", "missing_optional_fields", "next_prompt",
       "conversation_turn", "updated_at"] :=
  (update_profile_session_view_fields
    [("SESSION-1", ⟨"SESSION-1", "in_progress",
      [("name", JValue.str "John")], 1, "t0", "t0"⟩)]
    "SESSION-1" "t1" [] _ rfl).1

/-- A merge that returns found the `existing` object allocated. -/
theorem merge_heap_ea_alloc (fuel : Nat) (h : Heap) (next ea ua : Nat)
    (t : Heap × Nat × Nat) (hm : merge_heap fuel h next ea ua = some t) :
    ∃ o, alookup h ea = some o := by
  cases fuel with
  | zero => rw [merge_heap] at hm; exact Option.noConfusion hm
  | succ f =>
      rw [merge_heap] at hm
      cases he : alookup h ea with
      | none => rw [he] at hm; simp only [] at hm; exact Option.noConfusion hm
      | some o => exact ⟨o, rfl⟩

/-- **C8**: on the heap model, a successful `merge_profile_data` call
leaves every preexisting object — in particular the dict passed as
`existing` at address `ea`, with all its nested sub-mappings — reading
back exactly as before the call, at every read depth: the shallow
`existing.copy()` and all recursive copies are fresh allocations, and
the merge writes only into those. -/
theorem merge_heap_preserves_existing (fuel : Nat) (h : Heap) (next ea ua : Nat)
    (h' : Heap) (next' ra : Nat)
    (hcl : heap_closed h next = true)
    (hm : merge_heap fuel h next ea ua = some (h', next', ra)) :
    (∀ f, read_ref f h' ea = read_ref f h ea) ∧
    (∀ f a, a < next → read_ref f h' a = read_ref f h a) := by
  have fr := merge_heap_frame fuel h next ea ua h' next' ra hm
  have hall : ∀ f a, a < next → read_ref f h' a = read_ref f h a :=
    fun f a ha => read_ref_agree h h' next fr.2.2 hcl f a ha
  obtain ⟨o, ho⟩ := merge_heap_ea_alloc fuel h next ea ua _ hm
  exact ⟨fun f => hall f ea (heap_closed_lookup h next hcl ea o ho).1, hall⟩

/-- Witness for C8: merging `{"address": {"city": "NY"}}` (at address 2,
referencing 3) into `{"address": {"street": "Main"}}` (at address 0,
referencing 1) allocates fresh objects 4 and 5 and leaves the existing
dict at address 0 reading back unchanged. -/
theorem merge_heap_preserves_existing_witness :
    read_ref 2
        [(0, [("address", HVal.ref 1)]), (1, [("street", HVal.scalar (JValue.str "Main"))]),
         (2, [("address", HVal.ref 3)]), (3, [("city", HVal.scalar (JValue.str "NY"))]),
         (4, [("address", HVal.ref 5)]),
         (5, [("street", HVal.scalar (JValue.str "Main")),
              ("city", HVal.scalar (JValue.str "NY"))])] 0 =
      read_ref 2
        [(0, [("address", HVal.ref 1)]), (1, [("street", HVal.scalar (JValue.str "Main"))]),
         (2, [("address", HVal.ref 3)]), (3, [("city", HVal.scalar (JValue.str "NY"))])] 0 ∧
    read_ref 2
        [(0, [("address", HVal.ref 1)]), (1, [("street", HVal.scalar (JValue.str "Main"))]),
         (2, [("address", HVal.ref 3)]), (3, [("city", HVal.scalar (JValue.str "NY"))])] 0 =
      some (.obj [("address", .obj [("street", .str "Main")])]) := by
  have hm : merge_heap 3
      [(0, [("address", HVal.ref 1)]), (1, [("street", HVal.scalar (JValue.str "Main"))]),
       (2, [("address", HVal.ref 3)]), (3, [("city", HVal.scalar (JValue.str "NY"))])]
      4 0 2 =
      some ([(0, [("address", HVal.ref 1)]), (1, [("street", HVal.scalar (JValue.str "Main"))]),
       (2, [("address", HVal.ref 3)]), (3, [("city", HVal.scalar (JValue.str "NY"))]),
       (4, [("address", HVal.ref 5)]),
       (5, [("street", HVal.scalar (JValue.str "Main")),
            ("city", HVal.scalar (JValue.str "NY"))])], 6, 4) := by
    simp [merge_heap, merge_heap_entries, get_ref, alookup, aset]
  have h := merge_heap_preserves_existing 3
    [(0, [("address", HVal.ref 1)]), (1, [("street", HVal.scalar (JValue.str "Main"))]),
     (2, [("address", HVal.ref 3)]), (3, [("city", HVal.scalar (JValue.str "NY"))])]
    4 0 2
    [(0, [("address", HVal.ref 1)]), (1, [("street", HVal.scalar (JValue.str "Main"))]),
     (2, [("address", HVal.ref 3)]), (3, [("city", HVal.scalar (JValue.str "NY"))]),
     (4, [("address", HVal.ref 5)]),
     (5, [("street", HVal.scalar (JValue.str "Main")),
          ("city", HVal.scalar (JValue.str "NY"))])] 6 4 (by decide) hm
  refine ⟨h.1 2, ?_⟩
  simp [read_ref, read_entries, alookup]

end SlotFilling
